import Mathlib

/-!
# SNIJDER — shallow embedding and verification

A shallow embedding of the SNIJDER job-queue manager (`src/snijder/queue.py`,
`src/snijder/jobs.py`, `src/snijder/spooler.py`) into Lean 4, together with
theorems settling the frozen claims about the natural-language specification.

Modelling conventions:
* Python `dict`s are association lists (`Dict α`) with first-match lookup,
  in-place overwrite and first-match deletion; `collections.deque` objects
  are plain lists (`popleft` = head, `rotate(-1)` = move head to tail,
  `remove` = delete the first occurrence, raising `ValueError` when absent).
* Fallible Python code returns `Except PyError`; each constructor of
  `PyError` corresponds to a Python exception class that the source can
  raise on the modelled paths.
* Logging calls are pure tracing and are not modelled, except where a claim
  is about the log channel (then a boolean "warned" flag is returned).
* File-system and wall-clock effects are passed in explicitly (an
  `exists?` predicate, a `reads` oracle for successive file reads, a `now`
  string for timestamps) and file moves are returned as explicit
  `(source, destination)` pairs.
-/

namespace Snijder

/-- Python exception classes raised by the modelled code paths. -/
inductive PyError where
  | keyError
  | indexError
  | noSectionError
  | typeError (msg : String)
  | valueError (msg : String)
  | ioError (msg : String)
  | syntaxError (msg : String)
deriving BEq, DecidableEq, Repr

/-- Values stored in the dict-shaped job records: strings and lists of
strings (`infiles`, `ids`). -/
inductive Val where
  | str (s : String)
  | strList (l : List String)
deriving BEq, DecidableEq, Repr

/-- A Python `dict` with `String` keys, as an association list. -/
abbrev Dict (α : Type) := List (String × α)

/-- `m[k]` lookup (first match). -/
def dget? {α : Type} (m : Dict α) (k : String) : Option α :=
  match m with
  | [] => none
  | (k', v) :: rest => if k' = k then some v else dget? rest k

/-- `k in m` membership test. -/
def dmem {α : Type} (m : Dict α) (k : String) : Bool :=
  (dget? m k).isSome

/-- `m[k] = v` assignment: overwrite in place, or append a new entry. -/
def dset {α : Type} (m : Dict α) (k : String) (v : α) : Dict α :=
  match m with
  | [] => [(k, v)]
  | (k', v') :: rest => if k' = k then (k', v) :: rest else (k', v') :: dset rest k v

/-- `del m[k]`: drop the first entry with key `k`. -/
def ddel {α : Type} (m : Dict α) (k : String) : Dict α :=
  match m with
  | [] => []
  | (k', v') :: rest => if k' = k then rest else (k', v') :: ddel rest k

/-- `deque.remove(x)`: delete the first occurrence of `x`, raising
`ValueError` when `x` is not present. -/
def dequeRemove (l : List String) (x : String) : Except PyError (List String) :=
  if l.contains x then .ok (l.erase x)
  else .error (.valueError "deque.remove(x): x not in deque")

/-- `deque.rotate(-1)`: shift one position to the left (head moves to the
tail). -/
def rotateLeft1 (l : List String) : List String :=
  match l with
  | [] => []
  | x :: xs => xs ++ [x]

/-- The fields of a `JobDescription` that the queue module
(`src/snijder/queue.py`) reads: `uid`, `user` (the category),
`email`, `type`, `status`, `infiles` and `timestamp`. -/
structure JobDescription where
  uid : String
  user : String
  email : String
  jobtype : String
  status : String
  infiles : List String
  timestamp : String
deriving BEq, DecidableEq, Repr

/-- `JobDescription.get_category()`: the value of `user`. -/
def JobDescription.get_category (job : JobDescription) : String :=
  job.user

/-- The per-job record assembled by the `format_job` helper inside
`JobQueue.queue_details_json`. -/
structure FormattedJob where
  id : String
  file : List String
  username : String
  jobType : String
  status : String
  server : String
  progress : String
  pid : String
  start : String
  queued : String
deriving BEq, DecidableEq, Repr

/-- Helper function `format_job` of `queue_details_json`. -/
def format_job (job : JobDescription) : FormattedJob :=
  { id := job.uid, file := job.infiles, username := job.user,
    jobType := job.jobtype, status := job.status, server := "N/A",
    progress := "N/A", pid := "N/A", start := "N/A", queued := job.timestamp }

/-- The `JobQueue` state (`JobQueue.__init__`): categories deque, jobs dict,
processing list, per-category FIFO dict, deletion list and the dirty bit. -/
structure JobQueue where
  statusfile : Option String
  categories : List String
  jobs : Dict JobDescription
  processing : List String
  queue : Dict (List String)
  deletion_list : List String
  status_changed : Bool
deriving BEq, DecidableEq, Repr

/-- A fresh, empty `JobQueue()`. -/
def JobQueue.empty : JobQueue :=
  { statusfile := none, categories := [], jobs := [], processing := [],
    queue := [], deletion_list := [], status_changed := false }

/-- `num_jobs_queued()`: total length of all per-category FIFOs. -/
def JobQueue.num_jobs_queued (q : JobQueue) : Nat :=
  (q.queue.map (fun p => p.2.length)).sum

/-- `num_jobs_processing()`: length of the processing list. -/
def JobQueue.num_jobs_processing (q : JobQueue) : Nat :=
  q.processing.length

/-- `len(JobQueue)`: queued plus processing jobs. -/
def JobQueue.len (q : JobQueue) : Nat :=
  q.num_jobs_queued + q.num_jobs_processing

/-- `_is_queue_empty(category)`: when the category's FIFO is empty, drop the
category from the categories deque and delete its FIFO; report whether the
cleanup happened. -/
def JobQueue.is_queue_empty (q : JobQueue) (category : String) :
    Except PyError (Bool × JobQueue) :=
  match dget? q.queue category with
  | none => .error .keyError
  | some fifo =>
    if !fifo.isEmpty then .ok (false, q)
    else
      match dequeRemove q.categories category with
      | .error e => .error e
      | .ok cats =>
        .ok (true, { q with categories := cats, queue := ddel q.queue category })

/-- `joblist()`: round-robin interleaving of all per-category FIFOs
(`itertools.izip_longest` transposition, flattened row-major with the
padding dropped). -/
def JobQueue.joblist (q : JobQueue) : Except PyError (List String) :=
  if q.len = 0 then .ok []
  else
    match q.categories.mapM (fun c => (dget? q.queue c).elim (Except.error .keyError) Except.ok) with
    | .error e => .error e
    | .ok queues =>
      let maxlen := (queues.map List.length).foldl Nat.max 0
      .ok ((List.range maxlen).flatMap (fun k => queues.filterMap (fun fifo => fifo.get? k)))

/-- `queue_details()`: the queued job records in `joblist()` order. -/
def JobQueue.queue_details (q : JobQueue) : Except PyError (List JobDescription) :=
  match q.joblist with
  | .error e => .error e
  | .ok ids => ids.mapM (fun jobid => (dget? q.jobs jobid).elim (Except.error .keyError) Except.ok)

/-- `queue_details_json()`: the formatted job records, processing jobs
first, then the queued jobs in `joblist()` order.  (The JSON serialization
and the status-file write are not modelled; the claims only concern the
queue state.) -/
def JobQueue.queue_details_json (q : JobQueue) : Except PyError (List FormattedJob) :=
  match q.processing.mapM (fun jobid => (dget? q.jobs jobid).elim (Except.error .keyError) Except.ok) with
  | .error e => .error e
  | .ok procjobs =>
    match q.queue_details with
    | .error e => .error e
    | .ok qd => .ok (procjobs.map format_job ++ qd.map format_job)

/-- `update_status()`: return `none` unless the dirty bit is set; otherwise
clear the dirty bit and emit the queue details (`queue_details_hr` is
log-only and not modelled). -/
def JobQueue.update_status (q : JobQueue) :
    Except PyError (Option (List FormattedJob) × JobQueue) :=
  if !q.status_changed then .ok (none, q)
  else
    match JobQueue.queue_details_json { q with status_changed := false } with
    | .error e => .error e
    | .ok dj => .ok (some dj, { q with status_changed := false })

/-- `remove(uid, update_status=True)`: drop a job from the jobs dict and
from either its category's FIFO or the processing list.  When the uid is
unknown the request is discarded (`None`); when the uid is a key of `jobs`
but sits in neither place, a warning is logged and `None` is returned —
after the jobs entry has already been deleted and the dirty bit set. -/
def JobQueue.remove (q : JobQueue) (uid : String) (update_status : Bool := true) :
    Except PyError (Option JobDescription × JobQueue) :=
  match dget? q.jobs uid with
  | none => .ok (none, q)
  | some job =>
    let category := job.get_category
    let q1 : JobQueue := { q with jobs := ddel q.jobs uid, status_changed := true }
    match dget? q1.queue category with
    | some fifo =>
      if fifo.contains uid then
        let q2 : JobQueue := { q1 with queue := dset q1.queue category (fifo.erase uid) }
        match q2.is_queue_empty category with
        | .error e => .error e
        | .ok (_, q3) =>
          if update_status then
            match q3.update_status with
            | .error e => .error e
            | .ok (_, q4) => .ok (some job, q4)
          else .ok (some job, q3)
      else if q1.processing.contains uid then
        let q2 : JobQueue := { q1 with processing := q1.processing.erase uid }
        if update_status then
          match q2.update_status with
          | .error e => .error e
          | .ok (_, q3) => .ok (some job, q3)
        else .ok (some job, q2)
      else .ok (none, q1)
    | none =>
      if q1.processing.contains uid then
        let q2 : JobQueue := { q1 with processing := q1.processing.erase uid }
        if update_status then
          match q2.update_status with
          | .error e => .error e
          | .ok (_, q3) => .ok (some job, q3)
        else .ok (some job, q2)
      else .ok (none, q1)

/-- `next_job()`: pop the front of the head category's FIFO into
`processing`; drop the category if its FIFO became empty, otherwise rotate
the categories deque one to the left; return the job description. -/
def JobQueue.next_job (q : JobQueue) :
    Except PyError (Option JobDescription × JobQueue) :=
  match q.categories with
  | [] => .ok (none, q)
  | category :: _ =>
    match dget? q.queue category with
    | none => .error .keyError
    | some fifo =>
      match fifo with
      | [] => .error .indexError
      | jobid :: rest =>
        let q1 : JobQueue :=
          { q with queue := dset q.queue category rest,
                   processing := q.processing ++ [jobid] }
        match q1.is_queue_empty category with
        | .error e => .error e
        | .ok (emptied, q2) =>
          let q3 : JobQueue :=
            if emptied then q2
            else { q2 with categories := rotateLeft1 q2.categories }
          let q4 : JobQueue := { q3 with status_changed := true }
          match dget? q4.jobs jobid with
          | none => .error .keyError
          | some job => .ok (some job, q4)

/-- `set_jobstatus(job, status)`: write the new status into the (shared)
job record, set the dirty bit, remove the job when the status is
`TERMINATED` (the `gc3libs.Run.State.TERMINATED` string) and update the
queue status. -/
def JobQueue.set_jobstatus (q : JobQueue) (job : JobDescription) (status : String) :
    Except PyError JobQueue :=
  let jobs1 : Dict JobDescription :=
    match dget? q.jobs job.uid with
    | some j => dset q.jobs job.uid { j with status := status }
    | none => q.jobs
  let q1 : JobQueue := { q with jobs := jobs1, status_changed := true }
  match (if status = "TERMINATED" then (q1.remove job.uid true).map Prod.snd else .ok q1) with
  | .error e => .error e
  | .ok q2 =>
    match q2.update_status with
    | .error e => .error e
    | .ok (_, q3) => .ok q3

/-- `append(job)`: reject duplicate uids with `ValueError`; store the job,
create the category and its FIFO when new, enqueue the uid, set the job
status to `queued` and set the dirty bit. -/
def JobQueue.append (q : JobQueue) (job : JobDescription) :
    Except PyError JobQueue :=
  let category := job.get_category
  let uid := job.uid
  if dmem q.jobs uid then
    .error (.valueError "Job with [uid] already in this queue!")
  else
    let q1 : JobQueue := { q with jobs := dset q.jobs uid job }
    let q2 : JobQueue :=
      if q1.categories.contains category then q1
      else { q1 with categories := q1.categories ++ [category],
                     queue := dset q1.queue category [] }
    match dget? q2.queue category with
    | none => .error .keyError
    | some fifo =>
      let q3 : JobQueue := { q2 with queue := dset q2.queue category (fifo ++ [uid]) }
      match q3.set_jobstatus job "queued" with
      | .error e => .error e
      | .ok q4 => .ok { q4 with status_changed := true }

/-- The body of the `for uid in self.deletion_list` loop of
`process_deletion_list()`.  CPython iterates a list by an internal index
that is checked against the *current* list length, while the loop body
shrinks the list via `deletion_list.remove(uid)`; the model makes the index
`i` explicit.  The structural `gas` counter starts at the list length,
which bounds the number of iterations; the loop exits through the
`i < length` test exactly as the interpreter does. -/
def JobQueue.process_deletion_list_iter :
    Nat → JobQueue → Nat → Except PyError JobQueue
  | 0, q, _ =>
    (match q.update_status with
     | .error e => .error e
     | .ok (_, q') => .ok q')
  | gas + 1, q, i =>
    if h : i < q.deletion_list.length then
      let uid := q.deletion_list.get ⟨i, h⟩
      let q1 : JobQueue := { q with deletion_list := q.deletion_list.erase uid }
      match q1.remove uid false with
      | .error e => .error e
      | .ok (_, q2) => JobQueue.process_deletion_list_iter gas q2 (i + 1)
    else
      (match q.update_status with
       | .error e => .error e
       | .ok (_, q') => .ok q')

/-- `process_deletion_list()`: iterate over the deletion list, removing
each visited uid from the list and calling `remove(uid,
update_status=False)`; update the queue status once at the end. -/
def JobQueue.process_deletion_list (q : JobQueue) : Except PyError JobQueue :=
  JobQueue.process_deletion_list_iter q.deletion_list.length q 0

/-! ## Spooler (`src/snijder/spooler.py`) -/

/-- `JobSpooler.__allowed_status_values__`. -/
def allowed_status_values : List String :=
  ["shutdown", "refresh", "pause", "run"]

/-- The spooler state read and written by the `status` property:
`_status`, `_status_pre` and the spooler's `JobQueue`. -/
structure SpoolerSt where
  status : String
  status_pre : String
  queue : JobQueue
deriving BEq, DecidableEq, Repr

/-- The `status` property setter.  Returns the new spooler state together
with a flag telling whether the "Invalid spooler status requested,
ignoring" warning was logged.  Note that the `refresh` branch executes
`self.queue.update_status(force=True)` although `JobQueue.update_status()`
accepts no `force` keyword argument, so that call raises a `TypeError`
before any state is touched. -/
def status_setter (s : SpoolerSt) (newstatus : String) :
    Except PyError (SpoolerSt × Bool) :=
  if !(allowed_status_values.contains newstatus) then
    .ok (s, true)
  else if newstatus = "refresh" then
    .error (.typeError "update_status() got an unexpected keyword argument force")
  else if newstatus = s.status then
    .ok (s, false)
  else
    .ok ({ s with status_pre := s.status, status := newstatus }, false)

/-- The `for fname in self.__allowed_status_values__` loop of
`check_status_request()`: walk the candidate names in order; at the first
name whose request file exists, delete the file, assign the status and
return without looking at further names. -/
def check_status_request_go (s : SpoolerSt) (files : List String) :
    List String → Except PyError (SpoolerSt × List String × Option String)
  | [] => .ok (s, files, none)
  | fname :: rest =>
    if files.contains fname then
      let files1 := files.erase fname
      match status_setter s fname with
      | .error e => .error e
      | .ok (s1, _) => .ok (s1, files1, some fname)
    else check_status_request_go s files rest

/-- `check_status_request()`: `files` is the set of file names currently
present under `queue/requests`; the result is the new spooler state, the
remaining request files and the name of the request that was processed (if
any). -/
def check_status_request (s : SpoolerSt) (files : List String) :
    Except PyError (SpoolerSt × List String × Option String) :=
  check_status_request_go s files allowed_status_values

/-! ### Control-loop model for the single-flight claim

The spooler's `_spool()` loop talks to the external gc3 engine, which is
not part of this repository; the engine is modelled from its contract
(spec section 6.2): `add(app)` hands the engine one new task, `progress()`
submits pending new tasks and advances submitted and running tasks, and
`counts()` reports the per-state totals.  The job queue is abstracted to
the number of jobs waiting to be dispatched, and the deletion/kill steps
are omitted — they only ever remove tasks from the engine, which cannot
break an upper bound on the in-flight count. -/

/-- The engine's task counts (`counts()`), restricted to the lifecycle
states the loop acts on. -/
structure EngineCounts where
  new : Nat
  submitted : Nat
  running : Nat
  terminating : Nat
  terminated : Nat
deriving DecidableEq, Repr

/-- One `engine.progress()` tick: every pending NEW task is submitted, and
the environment chooses (via the oracle fields, clamped to what is
available) how many submitted tasks start running, how many running tasks
start terminating and how many terminating tasks finish. -/
structure ProgressOracle where
  toRun : Nat
  toTerminating : Nat
  toTerminated : Nat
deriving Repr

/-- Apply one `engine.progress()` tick to the counts. -/
def engine_progress (o : ProgressOracle) (c : EngineCounts) : EngineCounts :=
  let submitted := c.submitted + c.new
  let k1 := Nat.min o.toRun submitted
  let k2 := Nat.min o.toTerminating c.running
  let k3 := Nat.min o.toTerminated c.terminating
  { new := 0,
    submitted := submitted - k1,
    running := c.running + k1 - k2,
    terminating := c.terminating + k2 - k3,
    terminated := c.terminated + k3 }

/-- The loop state of `_spool()` for the single-flight claim: the spooler
status, the engine counts, the number of queued jobs (the `JobQueue`
abstracted to how many jobs `next_job()` can still hand out) and whether
the loop has ended (a `shutdown` return or the uncaught `TypeError` of a
`refresh` request). -/
structure LoopState where
  status : String
  status_pre : String
  counts : EngineCounts
  pending : Nat
  halted : Bool
deriving Repr

/-- The environment input for one loop iteration: the request-file name
handed to `check_status_request` (if a request file exists) and the engine
behaviour for this tick's `progress()` call. -/
structure TickOracle where
  request : Option String
  progress : ProgressOracle
deriving Repr

/-- What the loop observes in one `run`-status iteration: the `SUBMITTED`
and `RUNNING` counts it reads from `engine_status()`, and whether it
dispatched a job (`queue.next_job()` plus `engine.add(app)`) in this
iteration. -/
structure Obs where
  submitted : Nat
  running : Nat
  dispatched : Bool
deriving DecidableEq, Repr

/-- Apply a status request inside the loop model, following
`status_setter`: unknown names are ignored, `refresh` raises the
`TypeError` that ends `_spool()` (modelled by halting), the other names
change the status. -/
def loop_apply_request (s : LoopState) (fname : String) : LoopState :=
  if !(allowed_status_values.contains fname) then s
  else if fname = "refresh" then { s with halted := true }
  else if fname = s.status then s
  else { s with status_pre := s.status, status := fname }

/-- The body of the `run` status branch of `_spool()`: tick the engine
(`engine.progress()`), read the counts (`engine_status()`), and dispatch
one queued job via `queue.next_job()` / `engine.add(app)` only when
neither `RUNNING` nor `SUBMITTED` tasks were observed. -/
def spool_run_branch (po : ProgressOracle) (s1 : LoopState) : LoopState × Option Obs :=
  let counts := engine_progress po s1.counts
  if 0 < counts.running ∨ 0 < counts.submitted then
    ({ s1 with counts := counts }, some ⟨counts.submitted, counts.running, false⟩)
  else if 0 < s1.pending then
    ({ s1 with counts := { counts with new := counts.new + 1 },
               pending := s1.pending - 1 },
     some ⟨counts.submitted, counts.running, true⟩)
  else
    ({ s1 with counts := counts }, some ⟨counts.submitted, counts.running, false⟩)

/-- The remainder of a loop iteration once the status request (if any) has
been applied: dispatch on the spooler status (`run` works, `shutdown`
leaves the loop, `pause` sleeps; a halted loop — crashed on a `refresh`
request — does nothing). -/
def spool_tick_core (po : ProgressOracle) (s1 : LoopState) : LoopState × Option Obs :=
  if s1.halted then (s1, none)
  else if s1.status = "run" then spool_run_branch po s1
  else if s1.status = "shutdown" then ({ s1 with halted := true }, none)
  else (s1, none)

/-- One iteration of the `while True` loop of `_spool()`: check the
request channel (`check_status_request`), then run the status-dependent
body. -/
def spool_tick (o : TickOracle) (s : LoopState) : LoopState × Option Obs :=
  if s.halted then (s, none)
  else
    match o.request with
    | none => spool_tick_core o.progress s
    | some fname => spool_tick_core o.progress (loop_apply_request s fname)

/-- Run the loop over a list of tick oracles, collecting the observations
the loop makes. -/
def spool_observations : List TickOracle → LoopState → List Obs
  | [], _ => []
  | o :: os, s =>
    let (s1, obs) := spool_tick o s
    obs.toList ++ spool_observations os s1

/-- The state of a freshly started spooler: status `run`, an idle engine,
`pending` jobs waiting in the queue. -/
def init_loop_state (pending : Nat) : LoopState :=
  { status := "run", status_pre := "run",
    counts := ⟨0, 0, 0, 0, 0⟩, pending := pending, halted := false }

/-- The in-flight task count: tasks that are NEW, SUBMITTED or RUNNING. -/
def EngineCounts.inflight (c : EngineCounts) : Nat :=
  c.new + c.submitted + c.running

/-! ## Job description parser (`src/snijder/jobs.py`) -/

/-- `snijder.JOBFILE_VER` (`src/snijder/__init__.py`). -/
def JOBFILE_VER : String := "7"

/-- The outcome of one attempt to read the job file: either the `with
open` statement raised the spurious `TypeError` the source works around,
or the file content read (possibly empty when the producer has not
finished writing). -/
inductive ReadAttempt where
  | typeErr
  | content (s : String)
deriving DecidableEq, Repr

/-- True when the attempt left `config_raw` falsy. -/
def attempt_empty : ReadAttempt → Bool
  | .typeErr => true
  | .content s => s.data.isEmpty

/-- The back-off delays of `read_jobfile`, in microseconds (the source
uses seconds: `[0, 0.00001, 0.0001, 0.001, 0.01, 0.1]`). -/
def snooze_list : List Nat := [0, 10, 100, 1000, 10000, 100000]

/-- The `for snooze in [...]` retry loop of `read_jobfile`: sleep, try to
read, `continue` on `TypeError`, `break` at the first truthy content.
Returns the final `config_raw`, the number of read attempts made and the
list of delays slept through, in order. -/
def read_loop (reads : Nat → ReadAttempt) :
    List Nat → Nat → String → String × Nat × List Nat
  | [], _, acc => (acc, 0, [])
  | sn :: rest, i, acc =>
    match reads i with
    | .typeErr =>
      let (a, n, sl) := read_loop reads rest (i + 1) acc
      (a, n + 1, sn :: sl)
    | .content s =>
      if s.data.isEmpty then
        let (a, n, sl) := read_loop reads rest (i + 1) s
        (a, n + 1, sn :: sl)
      else (s, 1, [sn])

/-- The result of `read_jobfile`: the content or the `IOError` raised,
plus the observable retry behaviour. -/
structure ReadOutcome where
  value : Except PyError String
  attempts : Nat
  sleeps : List Nat
deriving Repr

/-- `AbstractJobConfigParser.read_jobfile(jobfile)`: fail with `IOError`
when the file does not exist or is not readable; otherwise retry reading
over the back-off list, and raise `IOError` when the content is still
empty after the last attempt.  `reads` tells what the `k`-th read attempt
returns. -/
def read_jobfile (fileExists readable : Bool) (reads : Nat → ReadAttempt) :
    ReadOutcome :=
  if !fileExists then ⟨.error (.ioError "Cant find file!"), 0, []⟩
  else if !readable then ⟨.error (.ioError "No permission reading file!"), 0, []⟩
  else
    let (raw, n, sl) := read_loop reads snooze_list 0 ""
    if raw.data.isEmpty then ⟨.error (.ioError "Unable to read job config file!"), n, sl⟩
    else ⟨.ok raw, n, sl⟩

/-- Python whitespace, for the `str.strip()` model. -/
def isSpaceChar (c : Char) : Bool :=
  c = ' ' || c = '\t' || c = '\n' || c = '\r' || c = '\x0b' || c = '\x0c'

/-- `str.strip()` on the character list of a string. -/
def trimChars (l : List Char) : List Char :=
  ((l.dropWhile isSpaceChar).reverse.dropWhile isSpaceChar).reverse

/-- `str.split(sep)` on the character list of a string (single-character
separator, as used by the source). -/
def splitChars (sep : Char) : List Char → List (List Char)
  | [] => [[]]
  | c :: rest =>
    let r := splitChars sep rest
    if c = sep then [] :: r
    else
      match r with
      | [] => [[c]]
      | g :: gs => (c :: g) :: gs

/-- Rebuild a string from its character list. -/
def strOfChars (l : List Char) : String := ⟨l⟩

/-- Modelled from Python `float(s)` as used for the `timestamp` option:
accepts an optionally signed decimal literal with at most one decimal
point and returns the accepted string unchanged (`None` plays the role of
the `ValueError`). -/
def floatParse? (s : String) : Option String :=
  let t := trimChars s.data
  let t2 := match t with
            | c :: rest => if c = '-' || c = '+' then rest else t
            | [] => t
  match splitChars '.' t2 with
  | [a] => if !a.isEmpty && a.all Char.isDigit then some s else none
  | [a, b] =>
    if !(a.isEmpty && b.isEmpty) && a.all Char.isDigit && b.all Char.isDigit
    then some s else none
  | _ => none

/-- Stand-in for `hashlib.sha1(...).hexdigest()`; no claim verified here
depends on the hash value itself, only on where it flows. -/
def sha1hex (s : String) : String := "sha1(" ++ s ++ ")"

/-- The ini structure held by `ConfigParser.RawConfigParser` after
`readfp`: sections in order, each with its options in order. -/
abbrev Ini := List (String × List (String × String))

/-- The mutable state of an `AbstractJobConfigParser`: the dict contents
the parser assembles (`self[...]`), the `sections` snapshot and the live
`jobparser` ini state that options get consumed from. -/
structure ParserSt where
  dict : Dict Val
  sections : List String
  ini : Ini
deriving Repr

/-- `get_option(section, option)`: read an option and remove it from the
section; `none` models `ConfigParser.NoOptionError`. -/
def get_option (st : ParserSt) (sectn optname : String) :
    Option (String × ParserSt) :=
  match dget? st.ini sectn with
  | none => none
  | some opts =>
    match dget? opts optname with
    | none => none
    | some value =>
      some (value, { st with ini := dset st.ini sectn (ddel opts optname) })

/-- `check_for_remaining_options(section)`: fail with `ValueError` when
the section still has options (the section itself always exists on the
modelled paths; a vanished section would raise `NoSectionError`). -/
def check_for_remaining_options (st : ParserSt) (sectn : String) :
    Except PyError Unit :=
  match dget? st.ini sectn with
  | none => .error .noSectionError
  | some remaining =>
    if remaining.isEmpty then .ok ()
    else .error (.valueError ("Job config invalid, section contains unknown options: " ++ sectn))

/-- The `for cfg_option, job_key in mapping` loop of
`parse_section_entries`: consume each option from the section and store it
under the job key, turning a missing option into `ValueError`. -/
def parse_mapping_entries (st : ParserSt) (sectn : String) :
    List (String × String) → Except PyError ParserSt
  | [] => .ok st
  | (cfg_option, job_key) :: rest =>
    match get_option st sectn cfg_option with
    | none => .error (.valueError ("Option missing from section: " ++ cfg_option))
    | some (value, st1) =>
      parse_mapping_entries { st1 with dict := dset st1.dict job_key (.str value) } sectn rest

/-- `parse_section_entries(section, mapping)`: require the section, consume
the mapped options, then check for remaining options.  NOTE: the source
passes the literal `"snijderjob"` to `check_for_remaining_options` here,
not the `section` argument. -/
def parse_section_entries (st : ParserSt) (sectn : String)
    (mapping : List (String × String)) : Except PyError ParserSt :=
  if (dget? st.ini sectn).isNone then
    .error (.valueError ("Section missing in job config: " ++ sectn))
  else
    match parse_mapping_entries st sectn mapping with
    | .error e => .error e
    | .ok st1 =>
      match check_for_remaining_options st1 "snijderjob" with
      | .error e => .error e
      | .ok _ => .ok st1

/-- The option-to-key mapping for the generic `snijderjob` section. -/
def snijderjob_mapping : List (String × String) :=
  [("version", "ver"), ("username", "user"), ("useremail", "email"),
   ("timestamp", "timestamp"), ("jobtype", "type")]

/-- The option-to-key mapping of `parse_job_hucore`. -/
def hucore_mapping : List (String × String) :=
  [("tasktype", "tasktype"), ("executable", "exec"), ("template", "template")]

/-- The option-to-key mapping of `parse_job_dummy`. -/
def dummy_mapping : List (String × String) :=
  [("tasktype", "tasktype"), ("executable", "exec")]

/-- The `for option in self.jobparser.options("inputfiles")` loop of
`parse_job_hucore`: consume every option of the section, appending each
value to `self["infiles"]`. -/
def collect_inputfiles (st : ParserSt) : List String → Except PyError ParserSt
  | [] => .ok st
  | optname :: rest =>
    match get_option st "inputfiles" optname with
    | none => .error .noSectionError
    | some (infile, st1) =>
      match dget? st1.dict "infiles" with
      | some (.strList l) =>
        collect_inputfiles { st1 with dict := dset st1.dict "infiles" (.strList (l ++ [infile])) } rest
      | _ => .error .keyError

/-- `parse_job_hucore()`: parse the `hucore` section, validate the
tasktype, then collect the `inputfiles` section. -/
def parse_job_hucore (st : ParserSt) : Except PyError ParserSt :=
  match parse_section_entries st "hucore" hucore_mapping with
  | .error e => .error e
  | .ok st1 =>
    match dget? st1.dict "tasktype" with
    | some (.str tasktype) =>
      if !(["decon", "preview"].contains tasktype) then
        .error (.valueError ("Tasktype invalid: " ++ tasktype))
      else if !(st1.sections.contains "inputfiles") then
        .error (.valueError "Section inputfiles missing in job config!")
      else
        let options := ((dget? st1.ini "inputfiles").getD []).map Prod.fst
        match collect_inputfiles st1 options with
        | .error e => .error e
        | .ok st2 =>
          match dget? st2.dict "infiles" with
          | some (.strList []) => .error (.valueError "No input files defined in job config!")
          | some (.strList _) => .ok st2
          | _ => .error .keyError
    | _ => .error .keyError

/-- `parse_job_dummy()`: parse the `hucore` section with the dummy
mapping and require tasktype `sleep`. -/
def parse_job_dummy (st : ParserSt) : Except PyError ParserSt :=
  match parse_section_entries st "hucore" dummy_mapping with
  | .error e => .error e
  | .ok st1 =>
    match dget? st1.dict "tasktype" with
    | some (.str tasktype) =>
      if tasktype = "sleep" then .ok st1
      else .error (.valueError ("Tasktype invalid: " ++ tasktype))
    | _ => .error .keyError

/-- `parse_job_deletejobs()`: require the `deletejobs` section, read its
`ids` option and split it at commas, trimming whitespace. -/
def parse_job_deletejobs (st : ParserSt) : Except PyError ParserSt :=
  if !(st.sections.contains "deletejobs") then
    .error (.valueError "No deletejobs section in job config!")
  else
    match get_option st "deletejobs" "ids" with
    | none => .error (.valueError "Cant find job IDs in job config!")
    | some (jobids, st1) =>
      .ok { st1 with dict := dset st1.dict "ids" (.strList ((splitChars ',' jobids.data).map (fun l => strOfChars (trimChars l)))) }

/-- `SnijderJobConfigParser.parse_jobdescription()`: parse the generic
`snijderjob` section, validate version and timestamp (`now` supplies the
already-formatted wall clock for the `on_parsing` escape hatch, which also
recomputes the uid from it), then dispatch on the jobtype. -/
def parse_jobdescription (now : String) (st : ParserSt) : Except PyError ParserSt :=
  match parse_section_entries st "snijderjob" snijderjob_mapping with
  | .error e => .error e
  | .ok st1 =>
    match dget? st1.dict "ver" with
    | some (.str ver) =>
      if ver ≠ JOBFILE_VER then
        .error (.valueError ("Unexpected jobfile version: " ++ ver))
      else
        match dget? st1.dict "timestamp" with
        | some (.str ts) =>
          let stamped : Except PyError ParserSt :=
            if ts = "on_parsing" then
              .ok { st1 with dict := dset (dset st1.dict "timestamp" (.str now)) "uid" (.str (sha1hex now)) }
            else
              match floatParse? ts with
              | none => .error (.valueError ("Invalid timestamp: " ++ ts))
              | some f => .ok { st1 with dict := dset st1.dict "timestamp" (.str f) }
          match stamped with
          | .error e => .error e
          | .ok st2 =>
            match dget? st2.dict "type" with
            | some (.str "hucore") => parse_job_hucore st2
            | some (.str "dummy") => parse_job_dummy st2
            | some (.str "deletejobs") => parse_job_deletejobs st2
            | some (.str other) => .error (.valueError ("Unknown jobtype: " ++ other))
            | _ => .error .keyError
        | _ => .error .keyError
    | _ => .error .keyError

/-- `parse_jobconfig(cfg_raw)`: run the ini reader (`readIni` models
`RawConfigParser.readfp`, returning `none` on a missing section header,
which becomes `SyntaxError`), require a non-empty section list, then run
`parse_jobdescription`. -/
def parse_jobconfig (readIni : String → Option Ini) (now : String)
    (dict0 : Dict Val) (cfg_raw : String) : Except PyError ParserSt :=
  match readIni cfg_raw with
  | none => .error (.syntaxError "ERROR in JobDescription: missing section headers")
  | some ini =>
    let sections := ini.map Prod.fst
    if sections.isEmpty then .error (.syntaxError "No sections found in job config!")
    else parse_jobdescription now { dict := dict0, sections := sections, ini := ini }

/-- `AbstractJobConfigParser.__init__` /
`SnijderJobConfigParser.__init__`: initialize `infiles`, obtain the raw
configuration (reading the file for `srctype="file"`), set the uid to its
SHA1 digest, parse, and fill the placeholder keys. -/
def parser_init (readIni : String → Option Ini) (now : String)
    (fileExists readable : Bool) (reads : Nat → ReadAttempt)
    (jobconfig : String) (srctype : String) : Except PyError ParserSt :=
  let dict0 : Dict Val := [("infiles", .strList [])]
  let cfg : Except PyError String :=
    if srctype = "file" then (read_jobfile fileExists readable reads).value
    else if srctype = "string" then .ok jobconfig
    else .error (.typeError ("Unknown source type: " ++ srctype))
  match cfg with
  | .error e => .error e
  | .ok raw =>
    let dict1 := dset dict0 "uid" (.str (sha1hex raw))
    match parse_jobconfig readIni now dict1 raw with
    | .error e => .error e
    | .ok st =>
      let d := dset (dset (dset (dset (dset st.dict "status" (.str "N/A"))
        "start" (.str "N/A")) "progress" (.str "N/A")) "pid" (.str "N/A")) "server" (.str "N/A")
      .ok { st with dict := d }

/-- `os.path.basename`: the part after the last path separator. -/
def basename (p : String) : String :=
  strOfChars ((splitChars '/' p.data).getLastD [])

/-- The result of `move_jobfile`: the updated `fname` pointer and the
`shutil.move` performed (source, destination), if any. -/
structure MoveResult where
  fname : Option String
  move : Option (String × String)
deriving DecidableEq, Repr

/-- `JobDescription.move_jobfile(target, suffix=".jobfile")`: a no-op for
string-sourced jobs (`fname is None`) and when the `spooldirs` class
variable is unset; otherwise move the job file to
`spooldirs[target]/<uid><suffix>`, appending a wall-clock suffix (`now`)
when the destination exists (`exists?`). -/
def move_jobfile (spooldirs : Option (Dict String)) (exists? : String → Bool)
    (now : String) (fname : Option String) (dict : Dict Val)
    (target : String) (suffix : String := ".jobfile") :
    Except PyError MoveResult :=
  match fname with
  | none => .ok ⟨none, none⟩
  | some src =>
    match spooldirs with
    | none => .ok ⟨some src, none⟩
    | some sd =>
      match dget? sd target with
      | none => .error .keyError
      | some dir =>
        match dget? dict "uid" with
        | some (.str uid) =>
          let tgt0 := dir ++ "/" ++ uid ++ suffix
          let tgt := if exists? tgt0 then tgt0 ++ "." ++ now else tgt0
          .ok ⟨some tgt, some (src, tgt)⟩
        | _ => .error .keyError

/-- The observable outcome of `JobDescription.__init__`: the final `fname`
pointer, the dict contents, the file move performed (if any) and whether
an exception propagated. -/
structure JDInitResult where
  fname : Option String
  dict : Dict Val
  move : Option (String × String)
  result : Except PyError Unit
deriving Repr

/-- `JobDescription.__init__(job, srctype)`: run the
`SnijderJobConfigParser`; when parsing raises `SyntaxError` or
`ValueError` on a file-sourced job, set the `uid` key to the file's
basename, move the job file to the `done` spool directory with suffix
`.invalid`, and re-raise.  Other errors (for example the `IOError` of
`read_jobfile`) propagate without a move. -/
def jobdescription_init (spooldirs : Option (Dict String)) (exists? : String → Bool)
    (readIni : String → Option Ini) (now : String)
    (fileExists readable : Bool) (reads : Nat → ReadAttempt)
    (job : String) (srctype : String) : JDInitResult :=
  let fname : Option String := if srctype = "file" then some job else none
  match parser_init readIni now fileExists readable reads job srctype with
  | .ok st => ⟨fname, st.dict, none, .ok ()⟩
  | .error e =>
    match e with
    | .syntaxError m =>
      if srctype = "file" then
        let dict : Dict Val := [("uid", .str (basename job))]
        match move_jobfile spooldirs exists? now fname dict "done" ".invalid" with
        | .ok mr => ⟨mr.fname, dict, mr.move, .error (.syntaxError m)⟩
        | .error e2 => ⟨fname, dict, none, .error e2⟩
      else ⟨fname, [], none, .error (.syntaxError m)⟩
    | .valueError m =>
      if srctype = "file" then
        let dict : Dict Val := [("uid", .str (basename job))]
        match move_jobfile spooldirs exists? now fname dict "done" ".invalid" with
        | .ok mr => ⟨mr.fname, dict, mr.move, .error (.valueError m)⟩
        | .error e2 => ⟨fname, dict, none, .error e2⟩
      else ⟨fname, [], none, .error (.valueError m)⟩
    | other => ⟨fname, [], none, .error other⟩

/-- `JobDescription.__setitem__(key, value)`: return unchanged when the
key already holds an equal value; otherwise store the value and — for the
key `status` — trigger the `store_job` side effect.  The boolean reports
whether `store_job` ran. -/
def jd_setitem (m : Dict Val) (key : String) (value : Val) : Dict Val × Bool :=
  match dget? m key with
  | some v0 =>
    if v0 = value then (m, false)
    else (dset m key value, decide (key = "status"))
  | none => (dset m key value, decide (key = "status"))

/-! ## Concrete inputs used by the scenario theorems -/

/-- A first `hucore` job of `user01`. -/
def jobU1 : JobDescription :=
  { uid := "u1", user := "user01", email := "user01@mail.xy", jobtype := "hucore",
    status := "N/A", infiles := ["data/a.h5"], timestamp := "1437152020.7" }

/-- A second `hucore` job of `user01`. -/
def jobU2 : JobDescription :=
  { uid := "u2", user := "user01", email := "user01@mail.xy", jobtype := "hucore",
    status := "N/A", infiles := ["data/b.h5"], timestamp := "1437152021.7" }

/-- A `hucore` job of `user02`. -/
def jobU3 : JobDescription :=
  { uid := "u3", user := "user02", email := "user02@mail.xy", jobtype := "hucore",
    status := "N/A", infiles := ["data/c.h5"], timestamp := "1437152022.7" }

/-- The queue state for the deletion-list scenario: two jobs of `user01`
enqueued via `append`, then both uids placed on the deletion list (as the
`deletejobs` handling in `process_jobfile` does). -/
def queueC1 : JobQueue :=
  match JobQueue.empty.append jobU1 with
  | .error _ => JobQueue.empty
  | .ok q =>
    match q.append jobU2 with
    | .error _ => JobQueue.empty
    | .ok q2 => { q2 with deletion_list := ["u1", "u2"] }

/-- The queue state of scenario S2: two jobs of `user01` appended, then
one of `user02`. -/
def queueS2 : Except PyError JobQueue :=
  match JobQueue.empty.append jobU1 with
  | .error e => .error e
  | .ok q =>
    match q.append jobU2 with
    | .error e => .error e
    | .ok q2 => q2.append jobU3

/-- Scenario S2 checked end to end: one `next_job()` call on `queueS2`
returns `user01`'s first job and leaves `categories = [user02, user01]`. -/
def s2_check : Bool :=
  match queueS2 with
  | .error _ => false
  | .ok q =>
    match q.next_job with
    | .ok (some job, q1) =>
      job == { jobU1 with status := "queued" }
        && q1.categories == ["user02", "user01"]
        && q1.processing == ["u1"]
    | _ => false

/-- The job configuration used to probe unknown-option checking: a valid
`dummy` job whose `[hucore]` section carries the extra option `bogus`. -/
def iniC2 : Ini :=
  [("snijderjob",
     [("version", "7"), ("username", "user01"), ("useremail", "user01@mail.xy"),
      ("timestamp", "1437123471.5"), ("jobtype", "dummy")]),
   ("hucore",
     [("tasktype", "sleep"), ("executable", "/usr/bin/sleep"), ("bogus", "extra")])]

/-- Run the full `SnijderJobConfigParser` on `iniC2` (string-sourced, so
the file oracles are unused). -/
def parserC2 : Except PyError ParserSt :=
  parser_init (fun _ => some iniC2) "0" true true (fun _ => .content "") "raw" "string"

/-! ## Shared dictionary lemmas -/

/-- Looking up the key just set yields the new value. -/
theorem dget?_dset_self {α : Type} (m : Dict α) (k : String) (v : α) :
    dget? (dset m k v) k = some v := by
  induction m with
  | nil => simp [dset, dget?]
  | cons p rest ih =>
    obtain ⟨k', v'⟩ := p
    by_cases h : k' = k <;> simp [dset, dget?, h, ih]

/-- Deleting a key right after overwriting it deletes the original entry. -/
theorem ddel_dset_same {α : Type} (m : Dict α) (k : String) (v : α) :
    ddel (dset m k v) k = ddel m k := by
  induction m with
  | nil => simp [dset, ddel]
  | cons p rest ih =>
    obtain ⟨k', v'⟩ := p
    by_cases h : k' = k <;> simp [dset, ddel, h, ih]

/-! ## Theorems for the claims -/

/-- C1: `process_deletion_list()` is claimed to drain the deletion list and
invoke `remove(uid, update_status=False)` for every uid on it.  The loop
body mutates the list it iterates over (`self.deletion_list.remove(uid)`),
so the interpreter's list iterator skips every other element: on the
two-element deletion list `["u1", "u2"]` of `queueC1` the call leaves
`"u2"` on the deletion list and `"u2"` is still a key of `jobs`, while
`"u1"` was removed. -/
theorem process_deletion_list_skips_alternate_uids :
    (JobQueue.process_deletion_list queueC1).map
        (fun q => (q.deletion_list, dmem q.jobs "u1", dmem q.jobs "u2"))
      = .ok (["u2"], false, true) := by
  rfl

/-- C2: unknown options in a recognized section are claimed to fail
validation with `ValueError`.  `parse_section_entries` passes the literal
`"snijderjob"` instead of its `section` argument to
`check_for_remaining_options`, so the `dummy` job configuration `iniC2`,
whose `[hucore]` section carries the unknown option `bogus`, parses
successfully, with the unknown option still sitting in the section — while
checking the correct section would have raised the `ValueError`. -/
theorem unknown_hucore_option_accepted :
    parserC2.map (fun st =>
        (dget? st.ini "hucore", check_for_remaining_options st "hucore"))
      = .ok (some [("bogus", "extra")],
             .error (.valueError "Job config invalid, section contains unknown options: hucore")) := by
  rfl

/-- C3: a `refresh` status request is claimed to print/update the queue
status and leave `_status` and `_status_pre` unchanged with no error.  The
`refresh` branch of the status setter calls
`self.queue.update_status(force=True)`, but `JobQueue.update_status()`
accepts no `force` keyword argument, so every refresh raises `TypeError`
(for any spooler state). -/
theorem status_refresh_raises_typeerror (s : SpoolerSt) :
    status_setter s "refresh" =
      .error (.typeError "update_status() got an unexpected keyword argument force") := by
  rfl

/-- C9: when a uid is a key of `jobs` but sits neither in its category's
FIFO nor in `processing`, `remove(uid)` returns `None` after the warning —
but it has already deleted the uid from the `jobs` dict and set the dirty
bit, leaving everything else unchanged. -/
theorem remove_warn_path_mutates_jobs (q : JobQueue) (uid : String)
    (job : JobDescription)
    (hjob : dget? q.jobs uid = some job)
    (hfifo : ∀ fifo, dget? q.queue job.user = some fifo → uid ∉ fifo)
    (hproc : uid ∉ q.processing) :
    q.remove uid true =
      .ok (none, { q with jobs := ddel q.jobs uid, status_changed := true }) := by
  unfold JobQueue.remove
  rw [hjob]
  cases hq : dget? q.queue job.get_category with
  | none => simp [hq, hproc]
  | some fifo =>
    have hf := hfifo fifo (by simpa [JobDescription.get_category] using hq)
    simp [hq, hf, hproc]

/-- Witness for C9: a queue whose `jobs` dict holds `"ux"` while no FIFO
and no processing entry mentions it. -/
theorem remove_warn_path_mutates_jobs_witness :
    JobQueue.remove
        { statusfile := none, categories := [], jobs := [("ux", jobU1)],
          processing := [], queue := [], deletion_list := [], status_changed := false }
        "ux" true =
      .ok (none,
        { statusfile := none, categories := [], jobs := [],
          processing := [], queue := [], deletion_list := [], status_changed := true }) := by
  exact remove_warn_path_mutates_jobs _ "ux" jobU1 rfl (by intro fifo h; cases h) (by simp)

/-- C10: assigning a value equal to the stored one via
`JobDescription.__setitem__` is a no-op that does not trigger `store_job`,
and `store_job` runs exactly when the key is `status` and the stored value
actually changes. -/
theorem setitem_noop_on_equal_value :
    (∀ (m : Dict Val) (key : String) (v : Val),
       dget? m key = some v → jd_setitem m key v = (m, false)) ∧
    (∀ (m : Dict Val) (key : String) (v : Val),
       (jd_setitem m key v).2 = true ↔ (key = "status" ∧ dget? m key ≠ some v)) := by
  constructor
  · intro m key v h
    simp [jd_setitem, h]
  · intro m key v
    unfold jd_setitem
    cases h : dget? m key with
    | none => simp [h]
    | some v0 =>
      by_cases hv : v0 = v
      · subst hv
        simp [h]
      · simp [h, hv]

/-- Witness for C10: re-assigning the stored status value is a no-op, and
a genuine status change triggers `store_job`. -/
theorem setitem_noop_on_equal_value_witness :
    jd_setitem [("status", .str "queued")] "status" (.str "queued")
        = ([("status", .str "queued")], false) ∧
    (jd_setitem [("status", .str "queued")] "status" (.str "RUNNING")).2 = true := by
  constructor
  · exact setitem_noop_on_equal_value.1 [("status", .str "queued")] "status" (.str "queued") rfl
  · exact (setitem_noop_on_equal_value.2 [("status", .str "queued")] "status" (.str "RUNNING")).mpr
      ⟨rfl, by decide⟩

/-- C5: `next_job()` returns `None` on an empty categories deque;
otherwise it pops the front uid of the head category's FIFO, appends it to
`processing`, returns that job, and either evicts the now-empty category
or rotates the categories deque left by one.  The last conjunct checks
scenario S2 end to end (two `user01` jobs and one `user02` job appended;
one `next_job()` returns `user01`'s first job and leaves
`categories = [user02, user01]`). -/
theorem next_job_round_robin :
    (∀ q : JobQueue, q.categories = [] → q.next_job = .ok (none, q)) ∧
    (∀ (q : JobQueue) (cat : String) (cats : List String) (uid : String)
        (fifo : List String) (job : JobDescription),
        q.categories = cat :: cats →
        dget? q.queue cat = some (uid :: fifo) →
        dget? q.jobs uid = some job →
        ∃ q' : JobQueue,
          q.next_job = .ok (some job, q') ∧
          q'.processing = q.processing ++ [uid] ∧
          q'.status_changed = true ∧
          q'.jobs = q.jobs ∧
          q'.deletion_list = q.deletion_list ∧
          (fifo = [] → q'.categories = cats ∧ q'.queue = ddel q.queue cat) ∧
          (fifo ≠ [] → q'.categories = cats ++ [cat] ∧ q'.queue = dset q.queue cat fifo)) ∧
    s2_check = true := by
  refine ⟨?_, ?_, by rfl⟩
  · intro q h
    simp [JobQueue.next_job, h]
  · intro q cat cats uid fifo job hcats hq hjob
    cases fifo with
    | nil =>
      have hmain : q.next_job = .ok (some job,
          { q with categories := cats, processing := q.processing ++ [uid],
                   queue := ddel q.queue cat, status_changed := true }) := by
        unfold JobQueue.next_job JobQueue.is_queue_empty dequeRemove
        rw [hcats]
        simp [hq, hjob, dget?_dset_self, ddel_dset_same]
      exact ⟨_, hmain, rfl, rfl, rfl, rfl, fun _ => ⟨rfl, rfl⟩, fun h => absurd rfl h⟩
    | cons f fs =>
      have hmain : q.next_job = .ok (some job,
          { q with categories := cats ++ [cat], processing := q.processing ++ [uid],
                   queue := dset q.queue cat (f :: fs), status_changed := true }) := by
        unfold JobQueue.next_job JobQueue.is_queue_empty
        rw [hcats]
        simp [hq, hjob, dget?_dset_self, rotateLeft1]
      exact ⟨_, hmain, rfl, rfl, rfl, rfl, fun h => absurd h (List.cons_ne_nil f fs), fun _ => ⟨rfl, rfl⟩⟩

/-- Witness for C5: a queue with one queued `user01` job (and a second one
behind it, so the rotation branch is exercised). -/
theorem next_job_round_robin_witness :
    ∃ q' : JobQueue,
      JobQueue.next_job
          { statusfile := none, categories := ["user01"],
            jobs := [("u1", jobU1), ("u2", jobU2)], processing := [],
            queue := [("user01", ["u1", "u2"])], deletion_list := [],
            status_changed := false }
        = .ok (some jobU1, q') ∧
      q'.processing = [] ++ ["u1"] ∧
      q'.status_changed = true ∧
      q'.jobs = [("u1", jobU1), ("u2", jobU2)] ∧
      q'.deletion_list = [] ∧
      (["u2"] = ([] : List String) → q'.categories = [] ∧ q'.queue = ddel [("user01", ["u1", "u2"])] "user01") ∧
      (["u2"] ≠ ([] : List String) → q'.categories = [] ++ ["user01"] ∧ q'.queue = dset [("user01", ["u1", "u2"])] "user01" ["u2"]) := by
  exact next_job_round_robin.2.1
    { statusfile := none, categories := ["user01"],
      jobs := [("u1", jobU1), ("u2", jobU2)], processing := [],
      queue := [("user01", ["u1", "u2"])], deletion_list := [],
      status_changed := false }
    "user01" [] "u1" ["u2"] jobU1 rfl rfl rfl

/-- C8: `check_status_request()` walks the names `shutdown, refresh,
pause, run` in this order; for the first name whose request file exists it
deletes the file, invokes the status setter with that name and checks no
further names; a requested status value outside the allowed set is
ignored by the setter with a warning and leaves the state unchanged. -/
theorem check_status_request_first_match (s : SpoolerSt) (files : List String) :
    (check_status_request s files =
       match allowed_status_values.find? (fun f => files.contains f) with
       | none => .ok (s, files, none)
       | some f =>
         match status_setter s f with
         | .error e => .error e
         | .ok (s1, _) => .ok (s1, files.erase f, some f)) ∧
    (∀ v, allowed_status_values.contains v = false →
       status_setter s v = .ok (s, true)) := by
  constructor
  · unfold check_status_request
    by_cases h1 : "shutdown" ∈ files <;> by_cases h2 : "refresh" ∈ files <;>
      by_cases h3 : "pause" ∈ files <;> by_cases h4 : "run" ∈ files <;>
        simp [check_status_request_go, allowed_status_values, List.find?, h1, h2, h3, h4]
  · intro v hv
    unfold status_setter
    rw [hv]
    simp

/-- Witness for C8: with `pause` and `run` request files present, the
`pause` request wins, its file is deleted and `run` is left untouched;
an invalid value is ignored with a warning. -/
theorem check_status_request_first_match_witness :
    check_status_request ⟨"run", "run", JobQueue.empty⟩ ["pause", "run"]
        = .ok (⟨"pause", "run", JobQueue.empty⟩, ["run"], some "pause") ∧
    status_setter ⟨"run", "run", JobQueue.empty⟩ "bogus"
        = .ok (⟨"run", "run", JobQueue.empty⟩, true) := by
  refine ⟨?_, ?_⟩
  · exact ((check_status_request_first_match ⟨"run", "run", JobQueue.empty⟩ ["pause", "run"]).1).trans (by rfl)
  · exact (check_status_request_first_match ⟨"run", "run", JobQueue.empty⟩ ["pause", "run"]).2 "bogus" rfl

/-- A string whose character list is empty is the empty string. -/
theorem str_eq_empty_of_data_isEmpty (s : String) (h : s.data.isEmpty = true) :
    s = "" := by
  cases s with
  | mk data => cases data with
    | nil => rfl
    | cons c cs => simp [List.isEmpty] at h

/-- The retry loop sleeps through exactly the delays of the attempts it
makes, in list order, and makes at most one attempt per delay entry. -/
theorem read_loop_sleeps (reads : Nat → ReadAttempt) (snoozes : List Nat)
    (i : Nat) (acc : String) :
    (read_loop reads snoozes i acc).2.1 ≤ snoozes.length ∧
    (read_loop reads snoozes i acc).2.2
      = snoozes.take (read_loop reads snoozes i acc).2.1 := by
  induction snoozes generalizing i acc with
  | nil => simp [read_loop]
  | cons sn rest ih =>
    cases hr : reads i with
    | typeErr =>
      have hih := ih (i + 1) acc
      rcases hrl : read_loop reads rest (i + 1) acc with ⟨a, n, sl⟩
      rw [hrl] at hih
      simp only [read_loop, hr, hrl]
      exact ⟨Nat.succ_le_succ hih.1, by simpa using hih.2⟩
    | content s =>
      cases hs : s.data.isEmpty with
      | true =>
        have hih := ih (i + 1) s
        rcases hrl : read_loop reads rest (i + 1) s with ⟨a, n, sl⟩
        rw [hrl] at hih
        simp only [read_loop, hr, hrl, hs, if_true]
        exact ⟨Nat.succ_le_succ hih.1, by simpa using hih.2⟩
      | false =>
        simp [read_loop, hr, hs]

/-- When the first `k` attempts leave the content falsy and attempt `k`
(within the delay budget) yields non-empty content, the retry loop stops
right there: it returns that content after `k + 1` attempts, having slept
through the first `k + 1` delays. -/
theorem read_loop_first_nonempty (reads : Nat → ReadAttempt) (snoozes : List Nat) :
    ∀ (i k : Nat) (acc s : String), k < snoozes.length →
      (∀ j, j < k → attempt_empty (reads (i + j)) = true) →
      reads (i + k) = .content s → s.data.isEmpty = false →
      read_loop reads snoozes i acc = (s, k + 1, snoozes.take (k + 1)) := by
  induction snoozes with
  | nil =>
    intro i k acc s hk
    exact absurd hk (Nat.not_lt_zero k)
  | cons sn rest ih =>
    intro i k acc s hk hbefore hread hne
    cases k with
    | zero =>
      have h0 : reads i = .content s := by simpa using hread
      simp [read_loop, h0, hne]
    | succ k' =>
      have h0 : attempt_empty (reads i) = true := by
        simpa using hbefore 0 (Nat.succ_pos k')
      have hbefore' : ∀ j, j < k' → attempt_empty (reads (i + 1 + j)) = true := by
        intro j hj
        have := hbefore (j + 1) (by omega)
        simpa [show i + (j + 1) = i + 1 + j by omega] using this
      have hread' : reads (i + 1 + k') = .content s := by
        simpa [show i + (k' + 1) = i + 1 + k' by omega] using hread
      have hk' : k' < rest.length := by simpa using Nat.lt_of_succ_lt_succ hk
      cases hr : reads i with
      | typeErr =>
        have hrec := ih (i + 1) k' acc s hk' hbefore' hread' hne
        simp [read_loop, hr, hrec, List.take]
      | content s0 =>
        have hs0 : s0.data.isEmpty = true := by simpa [attempt_empty, hr] using h0
        have hrec := ih (i + 1) k' s0 s hk' hbefore' hread' hne
        simp [read_loop, hr, hs0, hrec, List.take]

/-- When every attempt within the delay budget leaves the content falsy,
the retry loop exhausts all delays and comes back empty. -/
theorem read_loop_exhausts (reads : Nat → ReadAttempt) (snoozes : List Nat) :
    ∀ (i : Nat) (acc : String), acc = "" →
      (∀ j, j < snoozes.length → attempt_empty (reads (i + j)) = true) →
      read_loop reads snoozes i acc = ("", snoozes.length, snoozes) := by
  induction snoozes with
  | nil =>
    intro i acc hacc _
    simp [read_loop, hacc]
  | cons sn rest ih =>
    intro i acc hacc hall
    have h0 : attempt_empty (reads i) = true := by
      simpa using hall 0 (Nat.succ_pos rest.length)
    have hall' : ∀ j, j < rest.length → attempt_empty (reads (i + 1 + j)) = true := by
      intro j hj
      have := hall (j + 1) (by simpa using Nat.succ_lt_succ hj)
      simpa [show i + (j + 1) = i + 1 + j by omega] using this
    cases hr : reads i with
    | typeErr =>
      have hrec := ih (i + 1) acc hacc hall'
      simp [read_loop, hr, hrec]
    | content s0 =>
      have hs0 : s0.data.isEmpty = true := by simpa [attempt_empty, hr] using h0
      have hrec := ih (i + 1) s0 (str_eq_empty_of_data_isEmpty s0 hs0) hall'
      simp [read_loop, hr, hs0, hrec]

/-- C7: a file-sourced job configuration is read with at most six
attempts, sleeping through the back-off delays `[0, 10µs, 100µs, 1ms,
10ms, 100ms]` in that order; the loop stops at the first non-empty read
(returning that content), and when the content is still empty after all
attempts the parse fails with `IOError`. -/
theorem read_jobfile_retry_schedule (reads : Nat → ReadAttempt) :
    snooze_list = [0, 10, 100, 1000, 10000, 100000] ∧
    (read_jobfile true true reads).attempts ≤ 6 ∧
    (read_jobfile true true reads).sleeps
      = snooze_list.take (read_jobfile true true reads).attempts ∧
    (∀ (k : Nat) (s : String), k < 6 →
       (∀ j, j < k → attempt_empty (reads j) = true) →
       reads k = .content s → s.data.isEmpty = false →
       read_jobfile true true reads = ⟨.ok s, k + 1, snooze_list.take (k + 1)⟩) ∧
    ((∀ j, j < 6 → attempt_empty (reads j) = true) →
       read_jobfile true true reads
         = ⟨.error (.ioError "Unable to read job config file!"), 6, snooze_list⟩) := by
  refine ⟨rfl, ?_, ?_, ?_, ?_⟩
  · have h := read_loop_sleeps reads snooze_list 0 ""
    rcases hrl : read_loop reads snooze_list 0 "" with ⟨raw, n, sl⟩
    rw [hrl] at h
    cases hraw : raw.data.isEmpty <;> simp [read_jobfile, hrl, hraw] <;> exact h.1
  · have h := read_loop_sleeps reads snooze_list 0 ""
    rcases hrl : read_loop reads snooze_list 0 "" with ⟨raw, n, sl⟩
    rw [hrl] at h
    cases hraw : raw.data.isEmpty <;> simp [read_jobfile, hrl, hraw] <;> exact h.2
  · intro k s hk hbefore hread hne
    have hrl := read_loop_first_nonempty reads snooze_list 0 k "" s
      (by simpa [snooze_list] using hk) (by simpa using hbefore) (by simpa using hread) hne
    simp [read_jobfile, hrl, hne]
  · intro hall
    have hrl := read_loop_exhausts reads snooze_list 0 "" rfl (by simpa using hall)
    simp [read_jobfile, hrl]
    rfl

/-- Witness for C7: an immediately successful read makes one attempt with
no sleeping beyond the zero delay, and a permanently failing read
exhausts all six delays and raises `IOError`. -/
theorem read_jobfile_retry_schedule_witness :
    read_jobfile true true (fun _ => .content "cfg") = ⟨.ok "cfg", 1, [0]⟩ ∧
    read_jobfile true true (fun _ => .typeErr)
      = ⟨.error (.ioError "Unable to read job config file!"), 6, snooze_list⟩ := by
  constructor
  · exact (read_jobfile_retry_schedule (fun _ => .content "cfg")).2.2.2.1 0 "cfg"
      (by decide) (fun j hj => absurd hj (Nat.not_lt_zero j)) rfl rfl
  · exact (read_jobfile_retry_schedule (fun _ => .typeErr)).2.2.2.2 (fun j _ => rfl)

/-- C6: when parsing a file-sourced job fails with `SyntaxError` or
`ValueError`, `JobDescription.__init__` sets the job's `uid` to the file's
basename and moves the job file into the `done` spool directory with
suffix `.invalid` before the error propagates (given that the `spooldirs`
class variable is set, it maps `done` to a directory, and the destination
is collision-free). -/
theorem init_moves_invalid_jobfile_to_done
    (sd : Dict String) (doneDir : String) (exists? : String → Bool)
    (readIni : String → Option Ini) (now : String) (fe rd : Bool)
    (reads : Nat → ReadAttempt) (job : String) (e : PyError)
    (hparse : parser_init readIni now fe rd reads job "file" = .error e)
    (herr : (∃ m, e = .syntaxError m) ∨ (∃ m, e = .valueError m))
    (hdone : dget? sd "done" = some doneDir)
    (hfree : exists? (doneDir ++ "/" ++ basename job ++ ".invalid") = false) :
    jobdescription_init (some sd) exists? readIni now fe rd reads job "file" =
      { fname := some (doneDir ++ "/" ++ basename job ++ ".invalid"),
        dict := [("uid", .str (basename job))],
        move := some (job, doneDir ++ "/" ++ basename job ++ ".invalid"),
        result := .error e } := by
  unfold jobdescription_init
  rw [hparse]
  rcases herr with ⟨m, rfl⟩ | ⟨m, rfl⟩ <;>
    simp [move_jobfile, hdone, hfree, dget?]

/-- Witness for C6: a job file whose ini content has no sections
(`SyntaxError`) is moved to `done/job1.cfg.invalid` with the uid set to
the basename `job1.cfg`. -/
theorem init_moves_invalid_jobfile_to_done_witness :
    jobdescription_init (some [("done", "done")]) (fun _ => false)
        (fun _ => some []) "0" true true (fun _ => .content "cfg")
        "new/job1.cfg" "file" =
      { fname := some ("done" ++ "/" ++ basename "new/job1.cfg" ++ ".invalid"),
        dict := [("uid", .str (basename "new/job1.cfg"))],
        move := some ("new/job1.cfg", "done" ++ "/" ++ basename "new/job1.cfg" ++ ".invalid"),
        result := .error (.syntaxError "No sections found in job config!") } := by
  exact init_moves_invalid_jobfile_to_done [("done", "done")] "done" (fun _ => false)
    (fun _ => some []) "0" true true (fun _ => .content "cfg") "new/job1.cfg"
    (.syntaxError "No sections found in job config!") rfl
    (Or.inl ⟨"No sections found in job config!", rfl⟩) rfl rfl

/-- `engine.progress()` never increases the number of in-flight tasks. -/
theorem engine_progress_inflight_le (o : ProgressOracle) (c : EngineCounts) :
    (engine_progress o c).inflight ≤ c.inflight := by
  unfold engine_progress EngineCounts.inflight
  have h1 : Nat.min o.toRun (c.submitted + c.new) ≤ c.submitted + c.new :=
    Nat.min_le_right _ _
  have h2 : Nat.min o.toTerminating c.running ≤ c.running := Nat.min_le_right _ _
  simp only
  omega

/-- After `engine.progress()` no task is left in state NEW. -/
theorem engine_progress_new_eq_zero (o : ProgressOracle) (c : EngineCounts) :
    (engine_progress o c).new = 0 := rfl

/-- Handling a status request does not touch the engine counts. -/
theorem loop_apply_request_counts (s : LoopState) (f : String) :
    (loop_apply_request s f).counts = s.counts := by
  unfold loop_apply_request
  split_ifs <;> rfl

/-- The `run` branch preserves the in-flight bound and its observation
satisfies the single-flight property. -/
theorem spool_run_branch_single_flight (po : ProgressOracle) (s1 : LoopState)
    (hinv : s1.counts.inflight ≤ 1) :
    (spool_run_branch po s1).1.counts.inflight ≤ 1 ∧
    (∀ obs, (spool_run_branch po s1).2 = some obs →
       obs.submitted + obs.running ≤ 1 ∧
       (obs.dispatched = true → obs.submitted = 0 ∧ obs.running = 0)) := by
  unfold spool_run_branch
  have hc : (engine_progress po s1.counts).inflight ≤ 1 :=
    le_trans (engine_progress_inflight_le po s1.counts) hinv
  have hn0 : (engine_progress po s1.counts).new = 0 := rfl
  have hsum : (engine_progress po s1.counts).submitted
      + (engine_progress po s1.counts).running ≤ 1 := by
    unfold EngineCounts.inflight at hc
    omega
  by_cases hg : 0 < (engine_progress po s1.counts).running ∨
      0 < (engine_progress po s1.counts).submitted
  · rw [if_pos hg]
    refine ⟨hc, ?_⟩
    intro obs hobs
    cases hobs
    exact ⟨hsum, fun hd => by simp at hd⟩
  · rw [if_neg hg]
    have hr0 : (engine_progress po s1.counts).running = 0 := by omega
    have hs0 : (engine_progress po s1.counts).submitted = 0 := by omega
    by_cases hp : 0 < s1.pending
    · rw [if_pos hp]
      constructor
      · unfold EngineCounts.inflight
        simp only
        omega
      · intro obs hobs
        cases hobs
        exact ⟨hsum, fun _ => ⟨hs0, hr0⟩⟩
    · rw [if_neg hp]
      refine ⟨hc, ?_⟩
      intro obs hobs
      cases hobs
      exact ⟨hsum, fun hd => by simp at hd⟩

/-- The post-request part of a tick preserves the in-flight bound, and
every observation it produces satisfies the single-flight property. -/
theorem spool_tick_core_single_flight (po : ProgressOracle) (s1 : LoopState)
    (hinv : s1.counts.inflight ≤ 1) :
    (spool_tick_core po s1).1.counts.inflight ≤ 1 ∧
    (∀ obs, (spool_tick_core po s1).2 = some obs →
       obs.submitted + obs.running ≤ 1 ∧
       (obs.dispatched = true → obs.submitted = 0 ∧ obs.running = 0)) := by
  unfold spool_tick_core
  by_cases hh1 : s1.halted = true
  · simp [hh1, hinv]
  · rw [if_neg hh1]
    by_cases hrun : s1.status = "run"
    · rw [if_pos hrun]
      exact spool_run_branch_single_flight po s1 hinv
    · rw [if_neg hrun]
      by_cases hsd : s1.status = "shutdown"
      · rw [if_pos hsd]
        exact ⟨hinv, fun obs hobs => by cases hobs⟩
      · rw [if_neg hsd]
        exact ⟨hinv, fun obs hobs => by cases hobs⟩

/-- One loop tick preserves the in-flight bound, and every observation it
produces satisfies the single-flight property. -/
theorem spool_tick_single_flight (o : TickOracle) (s : LoopState)
    (hinv : s.counts.inflight ≤ 1) :
    (spool_tick o s).1.counts.inflight ≤ 1 ∧
    (∀ obs, (spool_tick o s).2 = some obs →
       obs.submitted + obs.running ≤ 1 ∧
       (obs.dispatched = true → obs.submitted = 0 ∧ obs.running = 0)) := by
  unfold spool_tick
  by_cases hh : s.halted = true
  · simp [hh, hinv]
  · rw [if_neg hh]
    cases o.request with
    | none => exact spool_tick_core_single_flight o.progress s hinv
    | some f =>
      exact spool_tick_core_single_flight o.progress (loop_apply_request s f)
        (by rw [loop_apply_request_counts]; exact hinv)

/-- Along any run of the loop from a state within the in-flight bound,
every observation satisfies the single-flight property. -/
theorem spool_observations_single_flight_aux :
    ∀ (os : List TickOracle) (s : LoopState), s.counts.inflight ≤ 1 →
      ∀ obs ∈ spool_observations os s,
        obs.submitted + obs.running ≤ 1 ∧
        (obs.dispatched = true → obs.submitted = 0 ∧ obs.running = 0) := by
  intro os
  induction os with
  | nil =>
    intro s _ obs h
    simp [spool_observations] at h
  | cons o os ih =>
    intro s hinv obs hmem
    have htick := spool_tick_single_flight o s hinv
    rcases hts : spool_tick o s with ⟨s1, obsOpt⟩
    rw [hts] at htick
    unfold spool_observations at hmem
    rw [hts] at hmem
    simp only [List.mem_append] at hmem
    cases hmem with
    | inl h =>
      cases obsOpt with
      | none => simp at h
      | some ob =>
        simp only [Option.toList, List.mem_singleton] at h
        exact h ▸ htick.2 _ rfl
    | inr h => exact ih s1 htick.1 obs h

/-- C4: over any run of the spooler loop started in the initial state, at
every observation point the counts read satisfy
`SUBMITTED + RUNNING ≤ 1`, and a job is dispatched
(`queue.next_job()` / `engine.add`) only in a tick whose counts read
`RUNNING = 0` and `SUBMITTED = 0`. -/
theorem spool_loop_single_flight (pending : Nat) (os : List TickOracle) :
    ∀ obs ∈ spool_observations os (init_loop_state pending),
      obs.submitted + obs.running ≤ 1 ∧
      (obs.dispatched = true → obs.submitted = 0 ∧ obs.running = 0) :=
  spool_observations_single_flight_aux os (init_loop_state pending)
    (by simp [init_loop_state, EngineCounts.inflight])

/-- Witness for C4: the first tick of a one-job run dispatches at counts
`SUBMITTED = 0`, `RUNNING = 0`. -/
theorem spool_loop_single_flight_witness :
    (⟨0, 0, true⟩ : Obs).submitted + (⟨0, 0, true⟩ : Obs).running ≤ 1 ∧
    ((⟨0, 0, true⟩ : Obs).dispatched = true →
      (⟨0, 0, true⟩ : Obs).submitted = 0 ∧ (⟨0, 0, true⟩ : Obs).running = 0) :=
  spool_loop_single_flight 1 [⟨none, ⟨0, 0, 0⟩⟩] ⟨0, 0, true⟩ (by decide)

end Snijder
